import Mathlib

/-!
Shallow embedding of `yakui-macroquad` (`src/src/lib.rs`), a glue layer
between the macroquad game engine and the yakui UI library (via
yakui-miniquad).

Modelling conventions:
* The wrapped `YakuiMiniQuad` library is external; we model it as a recorder
  of the calls made into it (`LibCall` trace), together with the graphics
  handle it was constructed with, an abstract yakui-core context (`ctx : Nat`)
  and abstract focus flags that its query methods read.
* `f32` event coordinates are never inspected or combined by the adapter,
  only forwarded; we model them as `Int` so states stay decidable.
* The macroquad engine state carries per-subscriber input-event queues
  (`queues`, indexed by subscriber id; `register_input_subscriber` appends a
  fresh empty queue and returns its index), a count of pending engine draw
  commands and a log of graphics actions, used to express the flush-before-
  UI-draw ordering.
* The `RwLock` around the global `Option<SendWrapper<Yakui>>` is modelled by
  a `locked` flag: `try_write` fails (the adapter panics) exactly when the
  flag is set. Operations return `Option`; `none` is the reentrancy panic.
-/

/-- Mirror of miniquad `MouseButton`. -/
inductive MouseButton where
  | Left | Right | Middle | Unknown
  deriving DecidableEq, Repr

/-- Mirror of miniquad `KeyMods` (modifier flags). -/
structure KeyMods where
  shift : Bool
  ctrl : Bool
  alt : Bool
  logo : Bool
  deriving DecidableEq, Repr

/-- Mirror of miniquad `KeyCode`; the adapter only forwards key codes, so we
model the enum by its discriminant. -/
structure KeyCode where
  code : Nat
  deriving DecidableEq, Repr

/-- An input event as delivered by macroquad's input dispatcher; one
constructor per `EventHandler` method the adapter implements. -/
inductive MqEvent where
  | mouseMotion (x y : Int)
  | mouseWheel (dx dy : Int)
  | mouseButtonDown (mb : MouseButton) (x y : Int)
  | mouseButtonUp (mb : MouseButton) (x y : Int)
  | charEvent (character : Char) (keymods : KeyMods) (rep : Bool)
  | keyDown (keycode : KeyCode) (keymods : KeyMods) (rep : Bool)
  | keyUp (keycode : KeyCode) (keymods : KeyMods)
  deriving DecidableEq, Repr

/-- A call made into the wrapped `YakuiMiniQuad` library, recorded in order. -/
inductive LibCall where
  | start
  | finish
  | draw (gl : Nat)
  | mouseMotion (x y : Int)
  | mouseWheel (dx dy : Int)
  | mouseButtonDown (mb : MouseButton) (x y : Int)
  | mouseButtonUp (mb : MouseButton) (x y : Int)
  | charEvent (character : Char) (keymods : KeyMods) (rep : Bool)
  | keyDown (keycode : KeyCode) (keymods : KeyMods) (rep : Bool)
  | keyUp (keycode : KeyCode) (keymods : KeyMods)
  deriving DecidableEq, Repr

/-- The library-side call corresponding 1:1 to a dispatched engine event. -/
def MqEvent.toCall : MqEvent → LibCall
  | .mouseMotion x y => .mouseMotion x y
  | .mouseWheel dx dy => .mouseWheel dx dy
  | .mouseButtonDown mb x y => .mouseButtonDown mb x y
  | .mouseButtonUp mb x y => .mouseButtonUp mb x y
  | .charEvent c k r => .charEvent c k r
  | .keyDown kc k r => .keyDown kc k r
  | .keyUp kc k => .keyUp kc k

/-- Abstract state of the external `YakuiMiniQuad` wrapper: the graphics
handle it was bound to at construction, the trace of calls made into it, the
abstract yakui-core context it owns, and the focus flags its queries read. -/
structure YakuiMiniQuad where
  boundGl : Nat
  trace : List LibCall
  ctx : Nat
  inputFocus : Bool
  keyboardFocus : Bool
  mouseFocus : Bool
  deriving DecidableEq, Repr

/-- `YakuiMiniQuad::new(ctx)`: a fresh library state bound to the given
graphics handle. -/
def YakuiMiniQuad.new (gl : Nat) : YakuiMiniQuad :=
  { boundGl := gl, trace := [], ctx := 0,
    inputFocus := false, keyboardFocus := false, mouseFocus := false }

def YakuiMiniQuad.start (l : YakuiMiniQuad) : YakuiMiniQuad :=
  { l with trace := l.trace ++ [.start] }

def YakuiMiniQuad.finish (l : YakuiMiniQuad) : YakuiMiniQuad :=
  { l with trace := l.trace ++ [.finish] }

/-- Modelled from the spec: `YakuiMiniQuad::run(f)` (external library code,
not in this repository) brackets the closure with the frame start/finish
pair — it starts the frame, runs `f` on the yakui-core context, and finishes
the frame. -/
def YakuiMiniQuad.run (f : Nat → Nat) (l : YakuiMiniQuad) : YakuiMiniQuad :=
  let l1 := l.start
  let l2 := { l1 with ctx := f l1.ctx }
  l2.finish

def YakuiMiniQuad.draw (l : YakuiMiniQuad) (gl : Nat) : YakuiMiniQuad :=
  { l with trace := l.trace ++ [.draw gl] }

def YakuiMiniQuad.has_input_focus (l : YakuiMiniQuad) : Bool := l.inputFocus

def YakuiMiniQuad.has_keyboard_focus (l : YakuiMiniQuad) : Bool := l.keyboardFocus

def YakuiMiniQuad.has_mouse_focus (l : YakuiMiniQuad) : Bool := l.mouseFocus

/-- The library's `EventHandler`-style entry point for one event: it records
exactly the corresponding call. -/
def YakuiMiniQuad.handle (l : YakuiMiniQuad) (e : MqEvent) : YakuiMiniQuad :=
  { l with trace := l.trace ++ [e.toCall] }

/-- One graphics action, for the flush-before-UI-draw ordering: either the
engine flushing its own pending draw commands, or the UI library's draw pass
(annotated with how many engine commands were still pending when it ran). -/
inductive GfxAction where
  | engineFlush
  | libDraw (pending : Nat)
  deriving DecidableEq, Repr

/-- The macroquad engine state the adapter interacts with: the graphics
handle returned by `get_internal_gl`, per-subscriber queues of input events
(a subscriber id is an index into `queues`), the number of engine draw
commands still pending, and the log of graphics actions. -/
structure MqState where
  glHandle : Nat
  queues : List (List MqEvent)
  pendingDraws : Nat
  gfx : List GfxAction
  deriving DecidableEq, Repr

/-- `macroquad::input::utils::register_input_subscriber()`: returns a fresh
subscriber id and registers an empty queue for it. -/
def register_input_subscriber (m : MqState) : Nat × MqState :=
  (m.queues.length, { m with queues := m.queues ++ [[]] })

/-- `gl.flush()`: the engine draws (and so clears) its pending commands. -/
def MqState.flush (m : MqState) : MqState :=
  { m with pendingDraws := 0, gfx := m.gfx ++ [.engineFlush] }

/-- The `Yakui` struct of the adapter: the wrapped library and the input
subscriber id obtained at construction. -/
structure Yakui where
  lib : YakuiMiniQuad
  subId : Nat
  deriving DecidableEq, Repr

/-- `Yakui::new()`: bind a fresh library context to the engine's graphics
handle and register one input subscriber. -/
def Yakui.new (m : MqState) : Yakui × MqState :=
  let lib := YakuiMiniQuad.new m.glHandle
  let (id, m') := register_input_subscriber m
  ({ lib := lib, subId := id }, m')

/-- The adapter's `mq::EventHandler` methods (the event-forwarding ones). -/
def Yakui.mouse_motion_event (s : Yakui) (x y : Int) : Yakui :=
  { s with lib := s.lib.handle (.mouseMotion x y) }

def Yakui.mouse_wheel_event (s : Yakui) (dx dy : Int) : Yakui :=
  { s with lib := s.lib.handle (.mouseWheel dx dy) }

def Yakui.mouse_button_down_event (s : Yakui) (mb : MouseButton) (x y : Int) : Yakui :=
  { s with lib := s.lib.handle (.mouseButtonDown mb x y) }

def Yakui.mouse_button_up_event (s : Yakui) (mb : MouseButton) (x y : Int) : Yakui :=
  { s with lib := s.lib.handle (.mouseButtonUp mb x y) }

def Yakui.char_event (s : Yakui) (c : Char) (k : KeyMods) (rep : Bool) : Yakui :=
  { s with lib := s.lib.handle (.charEvent c k rep) }

def Yakui.key_down_event (s : Yakui) (kc : KeyCode) (k : KeyMods) (rep : Bool) : Yakui :=
  { s with lib := s.lib.handle (.keyDown kc k rep) }

def Yakui.key_up_event (s : Yakui) (kc : KeyCode) (k : KeyMods) : Yakui :=
  { s with lib := s.lib.handle (.keyUp kc k) }

/-- `fn update(&mut self) {}` of the `EventHandler` impl. -/
def Yakui.update (s : Yakui) : Yakui := s

/-- `fn draw(&mut self) {}` of the `EventHandler` impl. -/
def Yakui.draw_handler (s : Yakui) : Yakui := s

/-- Dispatch one queued engine event to the adapter's `EventHandler` impl. -/
def Yakui.handleEvent (s : Yakui) (e : MqEvent) : Yakui :=
  match e with
  | .mouseMotion x y => s.mouse_motion_event x y
  | .mouseWheel dx dy => s.mouse_wheel_event dx dy
  | .mouseButtonDown mb x y => s.mouse_button_down_event mb x y
  | .mouseButtonUp mb x y => s.mouse_button_up_event mb x y
  | .charEvent c k r => s.char_event c k r
  | .keyDown kc k r => s.key_down_event kc k r
  | .keyUp kc k => s.key_up_event kc k

/-- `macroquad::input::utils::repeat_all_miniquad_input(handler, id)`:
replay every event queued for subscriber `id` through the handler, in
order, and consume them. -/
def repeat_all_miniquad_input (y : Yakui) (m : MqState) (id : Nat) :
    Yakui × MqState :=
  let evs := m.queues.getD id []
  (evs.foldl Yakui.handleEvent y, { m with queues := m.queues.set id [] })

/-- The whole observable state the adapter acts on: the contents of the
global `RwLock<Option<SendWrapper<Yakui>>>`, whether the write lock is
currently held, and the engine state. -/
structure GlobalState where
  yakui : Option Yakui
  locked : Bool
  mq : MqState
  deriving DecidableEq, Repr

/-- `get_yakui()`: take the write lock — panicking (`none`) if it is already
held — and initialize the context if it is not yet initialized. Returns the
context together with the state in which the lock is held. -/
def get_yakui (s : GlobalState) : Option (Yakui × GlobalState) :=
  if s.locked then none
  else
    match s.yakui with
    | some y => some (y, { s with locked := true })
    | none =>
      let (y, m') := Yakui.new s.mq
      some (y, { yakui := some y, locked := true, mq := m' })

/-- Release the lock, writing back the (possibly updated) context. -/
def putBack (y : Yakui) (s : GlobalState) : GlobalState :=
  { s with yakui := some y, locked := false }

/-- Body of `Yakui::start`: replay queued input through the event handler,
then start the library frame. -/
def Yakui.start (y : Yakui) (m : MqState) : Yakui × MqState :=
  let (y1, m1) := repeat_all_miniquad_input y m y.subId
  ({ y1 with lib := y1.lib.start }, m1)

/-- Body of `Yakui::finish`: forward to the library's `finish`. -/
def Yakui.finish (y : Yakui) (m : MqState) : Yakui × MqState :=
  ({ y with lib := y.lib.finish }, m)

/-- Body of `Yakui::ui`: replay queued input, then run the closure through
the library's `run`. -/
def Yakui.ui (f : Nat → Nat) (y : Yakui) (m : MqState) : Yakui × MqState :=
  let (y1, m1) := repeat_all_miniquad_input y m y.subId
  ({ y1 with lib := y1.lib.run f }, m1)

/-- Body of `Yakui::draw`: flush the engine's pending draw commands, then
hand the graphics context to the library's draw pass. The `libDraw` log
entry records how many engine commands were pending when the UI drew. -/
def Yakui.draw (y : Yakui) (m : MqState) : Yakui × MqState :=
  let m1 := m.flush
  ({ y with lib := y.lib.draw m1.glHandle },
   { m1 with gfx := m1.gfx ++ [.libDraw m1.pendingDraws] })

/-- Public `start()`. -/
def startOp (s : GlobalState) : Option (Unit × GlobalState) :=
  (get_yakui s).map fun (y, s1) =>
    let (y2, m2) := y.start s1.mq
    ((), putBack y2 { s1 with mq := m2 })

/-- Public `finish()`. -/
def finishOp (s : GlobalState) : Option (Unit × GlobalState) :=
  (get_yakui s).map fun (y, s1) =>
    let (y2, m2) := y.finish s1.mq
    ((), putBack y2 { s1 with mq := m2 })

/-- Public `ui(f)`. -/
def uiOp (f : Nat → Nat) (s : GlobalState) : Option (Unit × GlobalState) :=
  (get_yakui s).map fun (y, s1) =>
    let (y2, m2) := y.ui f s1.mq
    ((), putBack y2 { s1 with mq := m2 })

/-- Public `cfg(f)`: run the closure on the library's yakui-core context. -/
def cfgOp (f : Nat → Nat) (s : GlobalState) : Option (Unit × GlobalState) :=
  (get_yakui s).map fun (y, s1) =>
    ((), putBack { y with lib := { y.lib with ctx := f y.lib.ctx } } s1)

/-- Public `draw()`. -/
def drawOp (s : GlobalState) : Option (Unit × GlobalState) :=
  (get_yakui s).map fun (y, s1) =>
    let (y2, m2) := y.draw s1.mq
    ((), putBack y2 { s1 with mq := m2 })

/-- Public `has_input_focus()`. -/
def has_input_focusOp (s : GlobalState) : Option (Bool × GlobalState) :=
  (get_yakui s).map fun (y, s1) =>
    (y.lib.has_input_focus, putBack y s1)

/-- Public `has_keyboard_focus()`. -/
def has_keyboard_focusOp (s : GlobalState) : Option (Bool × GlobalState) :=
  (get_yakui s).map fun (y, s1) =>
    (y.lib.has_keyboard_focus, putBack y s1)

/-- Public `has_mouse_focus()`. -/
def has_mouse_focusOp (s : GlobalState) : Option (Bool × GlobalState) :=
  (get_yakui s).map fun (y, s1) =>
    (y.lib.has_mouse_focus, putBack y s1)

/-- The resulting global state of an operation, if it did not panic. -/
def stateOf {α : Type} (r : Option (α × GlobalState)) : Option GlobalState :=
  r.map (·.2)

/-- The context produced by lazy initialization from engine state `m`. -/
def freshYakui (m : MqState) : Yakui :=
  { lib := YakuiMiniQuad.new m.glHandle, subId := m.queues.length }

/-- Modelled from the spec: between `start()` and `finish()` the user's
UI-building code runs on the yakui-core context (the thread-bound yakui
context that direct yakui calls act on is not part of this repository). -/
def runUserCode (f : Nat → Nat) (s : GlobalState) : GlobalState :=
  { s with yakui := s.yakui.map fun y =>
      { y with lib := { y.lib with ctx := f y.lib.ctx } } }

/-- Lazy-initialization behaviour of one public operation at state `s`:
if the global context is uninitialized the operation creates it, bound to
the engine's graphics handle, registering exactly one input subscriber; if
it is initialized, the existing context is used and no subscriber is
registered; either way the operation succeeds and leaves the context
initialized. -/
def lazyInitAt (step : GlobalState → Option GlobalState) (s : GlobalState) :
    Prop :=
  (s.yakui = none →
    ∃ s', step s = some s' ∧ ∃ y', s'.yakui = some y' ∧
      y'.lib.boundGl = s.mq.glHandle ∧ y'.subId = s.mq.queues.length ∧
      s'.mq.queues.length = s.mq.queues.length + 1) ∧
  (∀ y, s.yakui = some y →
    ∃ s', step s = some s' ∧ ∃ y', s'.yakui = some y' ∧
      y'.lib.boundGl = y.lib.boundGl ∧ y'.subId = y.subId ∧
      s'.mq.queues.length = s.mq.queues.length)

/-- The operation succeeds at `s` and the context it leaves behind carries
the same subscriber id as the context `y` it started from. -/
def preservesSubId (step : GlobalState → Option GlobalState)
    (s : GlobalState) (y : Yakui) : Prop :=
  ∃ s' y', step s = some s' ∧ s'.yakui = some y' ∧ y'.subId = y.subId

/-! ### Concrete sample states, used to evaluate the operations -/

def sampleLib : YakuiMiniQuad :=
  { boundGl := 7, trace := [.start], ctx := 5,
    inputFocus := true, keyboardFocus := false, mouseFocus := true }

def sampleYakui : Yakui := { lib := sampleLib, subId := 0 }

def sampleQueue : List MqEvent :=
  [.mouseMotion 1 2, .keyUp ⟨3⟩ ⟨true, false, false, false⟩]

def sampleMq : MqState :=
  { glHandle := 7, queues := [sampleQueue], pendingDraws := 4, gfx := [] }

def sampleState : GlobalState :=
  { yakui := some sampleYakui, locked := false, mq := sampleMq }

/-! ### Helper lemmas: computing each operation -/

theorem Yakui.handleEvent_eq (y : Yakui) (e : MqEvent) :
    y.handleEvent e = { y with lib := y.lib.handle e } := by
  cases e <;> rfl

theorem foldl_handleEvent (evs : List MqEvent) (y : Yakui) :
    evs.foldl Yakui.handleEvent y =
      { y with lib :=
          { y.lib with trace := y.lib.trace ++ evs.map MqEvent.toCall } } := by
  induction evs generalizing y with
  | nil => simp
  | cons e t ih =>
      rw [List.foldl_cons, Yakui.handleEvent_eq, ih]
      simp [YakuiMiniQuad.handle]

theorem repeat_eq (y : Yakui) (m : MqState) (i : Nat) :
    repeat_all_miniquad_input y m i =
      ({ y with lib :=
           { y.lib with
             trace := y.lib.trace ++ (m.queues.getD i []).map MqEvent.toCall } },
       { m with queues := m.queues.set i [] }) := by
  simp [repeat_all_miniquad_input, foldl_handleEvent]

theorem startOp_some (y : Yakui) (m : MqState) :
    startOp ⟨some y, false, m⟩ =
      some ((), ⟨some { y with lib :=
            { y.lib with trace :=
                y.lib.trace ++ (m.queues.getD y.subId []).map MqEvent.toCall
                  ++ [.start] } },
          false, { m with queues := m.queues.set y.subId [] }⟩) := by
  simp [startOp, get_yakui, Yakui.start, repeat_eq, putBack,
    YakuiMiniQuad.start]

theorem finishOp_some (y : Yakui) (m : MqState) :
    finishOp ⟨some y, false, m⟩ =
      some ((), ⟨some { y with lib :=
            { y.lib with trace := y.lib.trace ++ [.finish] } }, false, m⟩) := by
  simp [finishOp, get_yakui, Yakui.finish, putBack, YakuiMiniQuad.finish]

theorem uiOp_some (f : Nat → Nat) (y : Yakui) (m : MqState) :
    uiOp f ⟨some y, false, m⟩ =
      some ((), ⟨some { y with lib :=
            { y.lib with
              trace := y.lib.trace ++ (m.queues.getD y.subId []).map MqEvent.toCall
                ++ [.start, .finish],
              ctx := f y.lib.ctx } },
          false, { m with queues := m.queues.set y.subId [] }⟩) := by
  simp [uiOp, get_yakui, Yakui.ui, repeat_eq, putBack,
    YakuiMiniQuad.run, YakuiMiniQuad.start, YakuiMiniQuad.finish]

theorem cfgOp_some (f : Nat → Nat) (y : Yakui) (m : MqState) :
    cfgOp f ⟨some y, false, m⟩ =
      some ((), ⟨some { y with lib := { y.lib with ctx := f y.lib.ctx } },
          false, m⟩) := by
  simp [cfgOp, get_yakui, putBack]

theorem drawOp_some (y : Yakui) (m : MqState) :
    drawOp ⟨some y, false, m⟩ =
      some ((), ⟨some { y with lib :=
            { y.lib with trace := y.lib.trace ++ [.draw m.glHandle] } },
          false,
          { m with pendingDraws := 0,
                   gfx := m.gfx ++ [.engineFlush, .libDraw 0] }⟩) := by
  simp [drawOp, get_yakui, Yakui.draw, MqState.flush, putBack,
    YakuiMiniQuad.draw]

theorem has_input_focusOp_some (y : Yakui) (m : MqState) :
    has_input_focusOp ⟨some y, false, m⟩ =
      some (y.lib.has_input_focus, ⟨some y, false, m⟩) := by
  simp [has_input_focusOp, get_yakui, putBack]

theorem has_keyboard_focusOp_some (y : Yakui) (m : MqState) :
    has_keyboard_focusOp ⟨some y, false, m⟩ =
      some (y.lib.has_keyboard_focus, ⟨some y, false, m⟩) := by
  simp [has_keyboard_focusOp, get_yakui, putBack]

theorem has_mouse_focusOp_some (y : Yakui) (m : MqState) :
    has_mouse_focusOp ⟨some y, false, m⟩ =
      some (y.lib.has_mouse_focus, ⟨some y, false, m⟩) := by
  simp [has_mouse_focusOp, get_yakui, putBack]

theorem get_yakui_none (m : MqState) :
    get_yakui ⟨none, false, m⟩ =
      some (freshYakui m,
        ⟨some (freshYakui m), true, { m with queues := m.queues ++ [[]] }⟩) := by
  simp [get_yakui, Yakui.new, register_input_subscriber, freshYakui]

theorem get_yakui_none_eq (m : MqState) :
    get_yakui ⟨none, false, m⟩ =
      get_yakui ⟨some (freshYakui m), false, { m with queues := m.queues ++ [[]] }⟩ := by
  simp [get_yakui, Yakui.new, register_input_subscriber, freshYakui]

theorem startOp_none (m : MqState) :
    startOp ⟨none, false, m⟩ =
      startOp ⟨some (freshYakui m), false, { m with queues := m.queues ++ [[]] }⟩ := by
  unfold startOp
  rw [get_yakui_none_eq]

theorem finishOp_none (m : MqState) :
    finishOp ⟨none, false, m⟩ =
      finishOp ⟨some (freshYakui m), false, { m with queues := m.queues ++ [[]] }⟩ := by
  unfold finishOp
  rw [get_yakui_none_eq]

theorem uiOp_none (f : Nat → Nat) (m : MqState) :
    uiOp f ⟨none, false, m⟩ =
      uiOp f ⟨some (freshYakui m), false, { m with queues := m.queues ++ [[]] }⟩ := by
  unfold uiOp
  rw [get_yakui_none_eq]

theorem cfgOp_none (f : Nat → Nat) (m : MqState) :
    cfgOp f ⟨none, false, m⟩ =
      cfgOp f ⟨some (freshYakui m), false, { m with queues := m.queues ++ [[]] }⟩ := by
  unfold cfgOp
  rw [get_yakui_none_eq]

theorem drawOp_none (m : MqState) :
    drawOp ⟨none, false, m⟩ =
      drawOp ⟨some (freshYakui m), false, { m with queues := m.queues ++ [[]] }⟩ := by
  unfold drawOp
  rw [get_yakui_none_eq]

theorem has_input_focusOp_none (m : MqState) :
    has_input_focusOp ⟨none, false, m⟩ =
      has_input_focusOp
        ⟨some (freshYakui m), false, { m with queues := m.queues ++ [[]] }⟩ := by
  unfold has_input_focusOp
  rw [get_yakui_none_eq]

theorem has_keyboard_focusOp_none (m : MqState) :
    has_keyboard_focusOp ⟨none, false, m⟩ =
      has_keyboard_focusOp
        ⟨some (freshYakui m), false, { m with queues := m.queues ++ [[]] }⟩ := by
  unfold has_keyboard_focusOp
  rw [get_yakui_none_eq]

theorem has_mouse_focusOp_none (m : MqState) :
    has_mouse_focusOp ⟨none, false, m⟩ =
      has_mouse_focusOp
        ⟨some (freshYakui m), false, { m with queues := m.queues ++ [[]] }⟩ := by
  unfold has_mouse_focusOp
  rw [get_yakui_none_eq]

theorem get_yakui_eq_none_iff (s : GlobalState) :
    get_yakui s = none ↔ s.locked = true := by
  obtain ⟨sy, sl, sm⟩ := s
  cases sl <;> cases sy <;>
    simp [get_yakui, Yakui.new, register_input_subscriber]

/-! ### Claim C1: lazy initialization -/

theorem lazyInit_helper
    (step : GlobalState → Option GlobalState)
    (hnone : ∀ m : MqState,
      step ⟨none, false, m⟩ =
        step ⟨some (freshYakui m), false, { m with queues := m.queues ++ [[]] }⟩)
    (hsome : ∀ (y : Yakui) (m : MqState),
      ∃ s', step ⟨some y, false, m⟩ = some s' ∧ ∃ y', s'.yakui = some y' ∧
        y'.lib.boundGl = y.lib.boundGl ∧ y'.subId = y.subId ∧
        s'.mq.queues.length = m.queues.length)
    (s : GlobalState) (h : s.locked = false) : lazyInitAt step s := by
  obtain ⟨sy, sl, sm⟩ := s
  cases sl with
  | true => simp at h
  | false =>
    cases sy with
    | none =>
      constructor
      · intro _
        obtain ⟨s', hs', y', hy', hgl, hsub, hlen⟩ :=
          hsome (freshYakui sm) { sm with queues := sm.queues ++ [[]] }
        refine ⟨s', ?_, y', hy', ?_, ?_, ?_⟩
        · rw [hnone]
          exact hs'
        · simpa [freshYakui, YakuiMiniQuad.new] using hgl
        · simpa [freshYakui] using hsub
        · simpa using hlen
      · intro y hy
        simp at hy
    | some y =>
      constructor
      · intro h0
        simp at h0
      · intro y0 hy0
        simp only [Option.some.injEq] at hy0
        subst hy0
        exact hsome y sm

/-- C1: every public operation (start, finish, ui, cfg, draw,
has_input_focus, has_keyboard_focus, has_mouse_focus) lazily initializes
the global UI context: when it is uninitialized, the operation creates it
exactly once, bound to the engine's graphics handle and registering one
input subscriber; when it is initialized, no new context or subscriber is
created and the existing one is used; in both cases the context is
initialized after the operation returns. -/
theorem claim_C1 (f g : Nat → Nat) (s : GlobalState) (h : s.locked = false) :
    lazyInitAt (fun t => stateOf (startOp t)) s ∧
    lazyInitAt (fun t => stateOf (finishOp t)) s ∧
    lazyInitAt (fun t => stateOf (uiOp f t)) s ∧
    lazyInitAt (fun t => stateOf (cfgOp g t)) s ∧
    lazyInitAt (fun t => stateOf (drawOp t)) s ∧
    lazyInitAt (fun t => stateOf (has_input_focusOp t)) s ∧
    lazyInitAt (fun t => stateOf (has_keyboard_focusOp t)) s ∧
    lazyInitAt (fun t => stateOf (has_mouse_focusOp t)) s := by
  refine ⟨?_, ?_, ?_, ?_, ?_, ?_, ?_, ?_⟩
  · refine lazyInit_helper _ (fun m => by rw [startOp_none]) (fun y m => ?_) s h
    simp only [startOp_some, stateOf, Option.map_some']
    exact ⟨_, rfl, _, rfl, rfl, rfl, by simp⟩
  · refine lazyInit_helper _ (fun m => by rw [finishOp_none]) (fun y m => ?_) s h
    simp only [finishOp_some, stateOf, Option.map_some']
    exact ⟨_, rfl, _, rfl, rfl, rfl, rfl⟩
  · refine lazyInit_helper _ (fun m => by rw [uiOp_none]) (fun y m => ?_) s h
    simp only [uiOp_some, stateOf, Option.map_some']
    exact ⟨_, rfl, _, rfl, rfl, rfl, by simp⟩
  · refine lazyInit_helper _ (fun m => by rw [cfgOp_none]) (fun y m => ?_) s h
    simp only [cfgOp_some, stateOf, Option.map_some']
    exact ⟨_, rfl, _, rfl, rfl, rfl, rfl⟩
  · refine lazyInit_helper _ (fun m => by rw [drawOp_none]) (fun y m => ?_) s h
    simp only [drawOp_some, stateOf, Option.map_some']
    exact ⟨_, rfl, _, rfl, rfl, rfl, rfl⟩
  · refine lazyInit_helper _ (fun m => by rw [has_input_focusOp_none]) (fun y m => ?_) s h
    simp only [has_input_focusOp_some, stateOf, Option.map_some']
    exact ⟨_, rfl, _, rfl, rfl, rfl, rfl⟩
  · refine lazyInit_helper _ (fun m => by rw [has_keyboard_focusOp_none]) (fun y m => ?_) s h
    simp only [has_keyboard_focusOp_some, stateOf, Option.map_some']
    exact ⟨_, rfl, _, rfl, rfl, rfl, rfl⟩
  · refine lazyInit_helper _ (fun m => by rw [has_mouse_focusOp_none]) (fun y m => ?_) s h
    simp only [has_mouse_focusOp_some, stateOf, Option.map_some']
    exact ⟨_, rfl, _, rfl, rfl, rfl, rfl⟩

theorem claim_C1_witness :
    sampleState.locked = false ∧
    (lazyInitAt (fun t => stateOf (startOp t)) sampleState ∧
     lazyInitAt (fun t => stateOf (finishOp t)) sampleState ∧
     lazyInitAt (fun t => stateOf (uiOp Nat.succ t)) sampleState ∧
     lazyInitAt (fun t => stateOf (cfgOp Nat.succ t)) sampleState ∧
     lazyInitAt (fun t => stateOf (drawOp t)) sampleState ∧
     lazyInitAt (fun t => stateOf (has_input_focusOp t)) sampleState ∧
     lazyInitAt (fun t => stateOf (has_keyboard_focusOp t)) sampleState ∧
     lazyInitAt (fun t => stateOf (has_mouse_focusOp t)) sampleState) :=
  ⟨rfl, claim_C1 Nat.succ Nat.succ sampleState rfl⟩

/-! ### Claim C2: the reentrancy panic guard -/

/-- C2: every public operation panics (returns `none`) precisely when the
global context lock is already held — a reentrant call such as calling an
operation from inside a `ui` or `cfg` closure; when the lock is free no
operation panics. -/
theorem claim_C2 (f g : Nat → Nat) (s : GlobalState) :
    (startOp s = none ↔ s.locked = true) ∧
    (finishOp s = none ↔ s.locked = true) ∧
    (uiOp f s = none ↔ s.locked = true) ∧
    (cfgOp g s = none ↔ s.locked = true) ∧
    (drawOp s = none ↔ s.locked = true) ∧
    (has_input_focusOp s = none ↔ s.locked = true) ∧
    (has_keyboard_focusOp s = none ↔ s.locked = true) ∧
    (has_mouse_focusOp s = none ↔ s.locked = true) := by
  refine ⟨?_, ?_, ?_, ?_, ?_, ?_, ?_, ?_⟩ <;>
    simp [startOp, finishOp, uiOp, cfgOp, drawOp, has_input_focusOp,
      has_keyboard_focusOp, has_mouse_focusOp, Option.map_eq_none',
      get_yakui_eq_none_iff]

/-! ### Claim C3: 1:1 forwarding of input events -/

/-- C3: each `EventHandler` method of the adapter forwards exactly the
dispatched event, with all arguments unchanged, into the wrapped UI
library, and changes nothing else (no events added, dropped or
reordered). -/
theorem claim_C3 (y : Yakui) (x z dx dy : Int) (mb : MouseButton)
    (c : Char) (k : KeyMods) (r : Bool) (kc : KeyCode) :
    y.mouse_motion_event x z =
      { y with lib := { y.lib with trace := y.lib.trace ++ [.mouseMotion x z] } } ∧
    y.mouse_wheel_event dx dy =
      { y with lib := { y.lib with trace := y.lib.trace ++ [.mouseWheel dx dy] } } ∧
    y.mouse_button_down_event mb x z =
      { y with lib := { y.lib with trace := y.lib.trace ++ [.mouseButtonDown mb x z] } } ∧
    y.mouse_button_up_event mb x z =
      { y with lib := { y.lib with trace := y.lib.trace ++ [.mouseButtonUp mb x z] } } ∧
    y.char_event c k r =
      { y with lib := { y.lib with trace := y.lib.trace ++ [.charEvent c k r] } } ∧
    y.key_down_event kc k r =
      { y with lib := { y.lib with trace := y.lib.trace ++ [.keyDown kc k r] } } ∧
    y.key_up_event kc k =
      { y with lib := { y.lib with trace := y.lib.trace ++ [.keyUp kc k] } } :=
  ⟨rfl, rfl, rfl, rfl, rfl, rfl, rfl⟩

/-! ### Claim C4: `ui f` is the `start`/`f`/`finish` bracket -/

theorem ui_eq_bracket_some (f : Nat → Nat) (y : Yakui) (m : MqState) :
    uiOp f ⟨some y, false, m⟩ =
      (startOp ⟨some y, false, m⟩).bind fun p => finishOp (runUserCode f p.2) := by
  rw [uiOp_some, startOp_some]
  simp [runUserCode, finishOp_some]

/-- C4: for every closure `f`, the public helper `ui f` is observationally
equivalent to `start()`, then running `f` on the UI context, then
`finish()` — the same frame bracket, including replaying queued input
before the frame starts. -/
theorem claim_C4 (f : Nat → Nat) (s : GlobalState) :
    uiOp f s = (startOp s).bind fun p => finishOp (runUserCode f p.2) := by
  obtain ⟨sy, sl, sm⟩ := s
  cases sl with
  | true => simp [uiOp, startOp, get_yakui]
  | false =>
    cases sy with
    | some y => exact ui_eq_bracket_some f y sm
    | none =>
      rw [uiOp_none, startOp_none]
      exact ui_eq_bracket_some f (freshYakui sm) _

/-! ### Claim C5: flush before the UI draw pass -/

/-- C5: every `draw()` call flushes the engine's pending draw commands
strictly before handing the graphics context to the UI library's draw pass:
the graphics log gains an `engineFlush` immediately followed by the UI draw,
and the UI draw runs with zero engine commands pending. -/
theorem claim_C5 (s : GlobalState) (h : s.locked = false) :
    ∃ s', drawOp s = some ((), s') ∧
      s'.mq.gfx = s.mq.gfx ++ [.engineFlush, .libDraw 0] ∧
      s'.mq.pendingDraws = 0 ∧
      ∃ y' t0, s'.yakui = some y' ∧
        y'.lib.trace = t0 ++ [.draw s.mq.glHandle] := by
  obtain ⟨sy, sl, sm⟩ := s
  cases sl with
  | true => simp at h
  | false =>
    cases sy with
    | some y =>
      rw [drawOp_some]
      exact ⟨_, rfl, rfl, rfl, _, y.lib.trace, rfl, rfl⟩
    | none =>
      rw [drawOp_none, drawOp_some]
      exact ⟨_, rfl, rfl, rfl, _, [], rfl, rfl⟩

/-! ### Claim C6: input replay before the frame -/

/-- C6: `start()` and `ui(f)` first replay, in order, every input event
queued for the subscriber id stored at initialization into the UI event
handler — the forwarded calls precede the `start` of the UI frame in the
library trace — and they consume exactly that subscriber's queue. -/
theorem claim_C6 (s : GlobalState) (y : Yakui) (h : s.locked = false)
    (hy : s.yakui = some y) :
    (∃ s', startOp s = some ((), s') ∧ ∃ y', s'.yakui = some y' ∧
        y'.lib.trace = y.lib.trace
          ++ (s.mq.queues.getD y.subId []).map MqEvent.toCall ++ [.start] ∧
        s'.mq.queues = s.mq.queues.set y.subId []) ∧
    (∀ f, ∃ s', uiOp f s = some ((), s') ∧ ∃ y', s'.yakui = some y' ∧
        y'.lib.trace = y.lib.trace
          ++ (s.mq.queues.getD y.subId []).map MqEvent.toCall ++ [.start, .finish] ∧
        s'.mq.queues = s.mq.queues.set y.subId []) := by
  obtain ⟨sy, sl, sm⟩ := s
  cases sl with
  | true => simp at h
  | false =>
    cases sy with
    | none => simp at hy
    | some y0 =>
      simp only [Option.some.injEq] at hy
      subst hy
      constructor
      · rw [startOp_some]
        exact ⟨_, rfl, _, rfl, rfl, rfl⟩
      · intro f
        rw [uiOp_some]
        exact ⟨_, rfl, _, rfl, rfl, rfl⟩

/-! ### Claim C7: 1:1 forwarding of queries and finish -/

/-- C7: on an initialized context, `has_input_focus()`, `has_keyboard_focus()`
and `has_mouse_focus()` return exactly the identically-named query of the
wrapped UI library, untransformed (and leave the state unchanged), and
`finish()` forwards 1:1 to the wrapped library's `finish`. -/
theorem claim_C7 (s : GlobalState) (y : Yakui) (h : s.locked = false)
    (hy : s.yakui = some y) :
    has_input_focusOp s = some (y.lib.has_input_focus, s) ∧
    has_keyboard_focusOp s = some (y.lib.has_keyboard_focus, s) ∧
    has_mouse_focusOp s = some (y.lib.has_mouse_focus, s) ∧
    finishOp s = some ((), { s with yakui := some { y with lib := y.lib.finish } }) := by
  obtain ⟨sy, sl, sm⟩ := s
  cases sl with
  | true => simp at h
  | false =>
    cases sy with
    | none => simp at hy
    | some y0 =>
      simp only [Option.some.injEq] at hy
      subst hy
      exact ⟨has_input_focusOp_some y0 sm, has_keyboard_focusOp_some y0 sm,
        has_mouse_focusOp_some y0 sm, finishOp_some y0 sm⟩

/-! ### Claim C8: the engine-loop callbacks are no-ops -/

/-- C8: the `update` and `draw` methods of the adapter's `EventHandler`
implementation are no-ops: they leave the wrapped UI context and the
subscriber id completely unchanged. -/
theorem claim_C8 (y : Yakui) : y.update = y ∧ y.draw_handler = y :=
  ⟨rfl, rfl⟩

/-! ### Claim C9: the subscriber id is write-once -/

/-- C9: the input-subscriber id stored in the `Yakui` struct is never
modified by any operation or event-handler method after construction, and
every input replay (in `start` and `ui`) uses exactly that stored id. -/
theorem claim_C9 (f g : Nat → Nat) (s : GlobalState) (y : Yakui)
    (h : s.locked = false) (hy : s.yakui = some y) :
    (∀ e : MqEvent, (y.handleEvent e).subId = y.subId) ∧
    y.update.subId = y.subId ∧
    y.draw_handler.subId = y.subId ∧
    preservesSubId (fun t => stateOf (startOp t)) s y ∧
    preservesSubId (fun t => stateOf (finishOp t)) s y ∧
    preservesSubId (fun t => stateOf (uiOp f t)) s y ∧
    preservesSubId (fun t => stateOf (cfgOp g t)) s y ∧
    preservesSubId (fun t => stateOf (drawOp t)) s y ∧
    preservesSubId (fun t => stateOf (has_input_focusOp t)) s y ∧
    preservesSubId (fun t => stateOf (has_keyboard_focusOp t)) s y ∧
    preservesSubId (fun t => stateOf (has_mouse_focusOp t)) s y ∧
    (∃ s', stateOf (startOp s) = some s' ∧
      s'.mq.queues = s.mq.queues.set y.subId []) ∧
    (∃ s', stateOf (uiOp f s) = some s' ∧
      s'.mq.queues = s.mq.queues.set y.subId []) := by
  obtain ⟨sy, sl, sm⟩ := s
  cases sl with
  | true => simp at h
  | false =>
    cases sy with
    | none => simp at hy
    | some y0 =>
      simp only [Option.some.injEq] at hy
      subst hy
      refine ⟨fun e => by cases e <;> rfl, rfl, rfl,
        ?_, ?_, ?_, ?_, ?_, ?_, ?_, ?_, ?_, ?_⟩
      · simp only [preservesSubId, stateOf, startOp_some, Option.map_some']
        exact ⟨_, _, rfl, rfl, rfl⟩
      · simp only [preservesSubId, stateOf, finishOp_some, Option.map_some']
        exact ⟨_, _, rfl, rfl, rfl⟩
      · simp only [preservesSubId, stateOf, uiOp_some, Option.map_some']
        exact ⟨_, _, rfl, rfl, rfl⟩
      · simp only [preservesSubId, stateOf, cfgOp_some, Option.map_some']
        exact ⟨_, _, rfl, rfl, rfl⟩
      · simp only [preservesSubId, stateOf, drawOp_some, Option.map_some']
        exact ⟨_, _, rfl, rfl, rfl⟩
      · simp only [preservesSubId, stateOf, has_input_focusOp_some, Option.map_some']
        exact ⟨_, _, rfl, rfl, rfl⟩
      · simp only [preservesSubId, stateOf, has_keyboard_focusOp_some, Option.map_some']
        exact ⟨_, _, rfl, rfl, rfl⟩
      · simp only [preservesSubId, stateOf, has_mouse_focusOp_some, Option.map_some']
        exact ⟨_, _, rfl, rfl, rfl⟩
      · simp only [stateOf, startOp_some, Option.map_some']
        exact ⟨_, rfl, rfl⟩
      · simp only [stateOf, uiOp_some, Option.map_some']
        exact ⟨_, rfl, rfl⟩

/-! ### Claim C10: the queries do not mutate the state -/

/-- C10: on an initialized context, the three focus queries leave the
entire adapter state (context, lock, engine state) unchanged, even though
they acquire the write lock. -/
theorem claim_C10 (s : GlobalState) (y : Yakui) (h : s.locked = false)
    (hy : s.yakui = some y) :
    stateOf (has_input_focusOp s) = some s ∧
    stateOf (has_keyboard_focusOp s) = some s ∧
    stateOf (has_mouse_focusOp s) = some s := by
  obtain ⟨sy, sl, sm⟩ := s
  cases sl with
  | true => simp at h
  | false =>
    cases sy with
    | none => simp at hy
    | some y0 =>
      simp only [Option.some.injEq] at hy
      subst hy
      simp [stateOf, has_input_focusOp_some, has_keyboard_focusOp_some,
        has_mouse_focusOp_some]

/-! ### Witnesses: the claims evaluated at a concrete state -/

theorem claim_C5_witness :
    sampleState.locked = false ∧
    (∃ s', drawOp sampleState = some ((), s') ∧
      s'.mq.gfx = sampleState.mq.gfx ++ [.engineFlush, .libDraw 0] ∧
      s'.mq.pendingDraws = 0 ∧
      ∃ y' t0, s'.yakui = some y' ∧
        y'.lib.trace = t0 ++ [.draw sampleState.mq.glHandle]) :=
  ⟨rfl, claim_C5 sampleState rfl⟩

theorem claim_C6_witness :
    sampleState.locked = false ∧ sampleState.yakui = some sampleYakui ∧
    ((∃ s', startOp sampleState = some ((), s') ∧ ∃ y', s'.yakui = some y' ∧
        y'.lib.trace = sampleYakui.lib.trace
          ++ (sampleState.mq.queues.getD sampleYakui.subId []).map MqEvent.toCall
          ++ [.start] ∧
        s'.mq.queues = sampleState.mq.queues.set sampleYakui.subId []) ∧
     (∀ f, ∃ s', uiOp f sampleState = some ((), s') ∧ ∃ y', s'.yakui = some y' ∧
        y'.lib.trace = sampleYakui.lib.trace
          ++ (sampleState.mq.queues.getD sampleYakui.subId []).map MqEvent.toCall
          ++ [.start, .finish] ∧
        s'.mq.queues = sampleState.mq.queues.set sampleYakui.subId [])) :=
  ⟨rfl, rfl, claim_C6 sampleState sampleYakui rfl rfl⟩

theorem claim_C7_witness :
    sampleState.locked = false ∧ sampleState.yakui = some sampleYakui ∧
    (has_input_focusOp sampleState =
        some (sampleYakui.lib.has_input_focus, sampleState) ∧
     has_keyboard_focusOp sampleState =
        some (sampleYakui.lib.has_keyboard_focus, sampleState) ∧
     has_mouse_focusOp sampleState =
        some (sampleYakui.lib.has_mouse_focus, sampleState) ∧
     finishOp sampleState =
        some ((), { sampleState with
          yakui := some { sampleYakui with lib := sampleYakui.lib.finish } })) :=
  ⟨rfl, rfl, claim_C7 sampleState sampleYakui rfl rfl⟩

theorem claim_C9_witness :
    sampleState.locked = false ∧ sampleState.yakui = some sampleYakui ∧
    ((∀ e : MqEvent, (sampleYakui.handleEvent e).subId = sampleYakui.subId) ∧
     sampleYakui.update.subId = sampleYakui.subId ∧
     sampleYakui.draw_handler.subId = sampleYakui.subId ∧
     preservesSubId (fun t => stateOf (startOp t)) sampleState sampleYakui ∧
     preservesSubId (fun t => stateOf (finishOp t)) sampleState sampleYakui ∧
     preservesSubId (fun t => stateOf (uiOp Nat.succ t)) sampleState sampleYakui ∧
     preservesSubId (fun t => stateOf (cfgOp Nat.succ t)) sampleState sampleYakui ∧
     preservesSubId (fun t => stateOf (drawOp t)) sampleState sampleYakui ∧
     preservesSubId (fun t => stateOf (has_input_focusOp t)) sampleState sampleYakui ∧
     preservesSubId (fun t => stateOf (has_keyboard_focusOp t)) sampleState sampleYakui ∧
     preservesSubId (fun t => stateOf (has_mouse_focusOp t)) sampleState sampleYakui ∧
     (∃ s', stateOf (startOp sampleState) = some s' ∧
        s'.mq.queues = sampleState.mq.queues.set sampleYakui.subId []) ∧
     (∃ s', stateOf (uiOp Nat.succ sampleState) = some s' ∧
        s'.mq.queues = sampleState.mq.queues.set sampleYakui.subId [])) :=
  ⟨rfl, rfl, claim_C9 Nat.succ Nat.succ sampleState sampleYakui rfl rfl⟩

theorem claim_C10_witness :
    sampleState.locked = false ∧ sampleState.yakui = some sampleYakui ∧
    (stateOf (has_input_focusOp sampleState) = some sampleState ∧
     stateOf (has_keyboard_focusOp sampleState) = some sampleState ∧
     stateOf (has_mouse_focusOp sampleState) = some sampleState) :=
  ⟨rfl, rfl, claim_C10 sampleState sampleYakui rfl rfl⟩
